import Mathlib

/-!
Verification development for the miru media-identification core.

This file shallowly embeds the pure algorithms of the repository:

* src/nyaa/smart_search.rs : query parsing, search-query expansion, result scoring
* src/library/parser.rs    : filename episode/quality/release-group extraction
* src/library/batch.rs     : folder categorization and batch (directory tree) analysis
* src/library/tracking.rs  : the per-series update-matcher filtering loop

Rust regular expressions are embedded as explicit leftmost-first backtracking
scanners over lists of characters: the scanner tries each start position from
the left and, at a position, explores quantifier/alternation choices in the
same priority order as the regex crate (greedy quantifiers longest-first,
alternations in written order).  Word boundaries are checked against the
previous character.  The character classes are the ASCII parts of the Unicode
classes used by the regex crate; all inputs relevant to the claims are ASCII.

Machine integers (u32) are modelled as Nat; the places where a u32 parse of a
capture can fail (an unbounded digit capture overflowing u32) carry an explicit
bound check, and captures whose width is syntactically bounded (at most four
digits) are parsed directly since such a parse cannot fail.
-/

namespace Miru

/-! ## Character utilities -/

/-- ASCII whitespace characters (the ASCII part of the regex-crate class `\s`
and of Rust's char::is_whitespace). -/
def isWsChar (c : Char) : Bool :=
  c == ' ' || c == '\t' || c == '\n' || c == '\r' || c == '\x0b' || c == '\x0c'

/-- ASCII word characters (the ASCII part of the regex-crate class `\w`),
used for word boundaries. -/
def isWordChar (c : Char) : Bool :=
  c.isAlphanum || c == '_'

/-- A word boundary holds before a word character iff the preceding character
(if any) is not a word character. -/
def noWordBefore : Option Char → Bool
  | none => true
  | some c => !isWordChar c

/-- A word boundary holds after a word character iff the next character
(if any) is not a word character. -/
def noWordNext : List Char → Bool
  | [] => true
  | c :: _ => !isWordChar c

/-- Lowercase every character (ASCII case folding; models str::to_lowercase
on the ASCII inputs of this development). -/
def lowerChars (l : List Char) : List Char := l.map Char.toLower

/-- Case-insensitive character test against a lowercase target. -/
def charCi (target c : Char) : Bool := c.toLower == target

/-- Length of the leading run of decimal digits. -/
def digitPrefixLen : List Char → Nat
  | c :: cs => if c.isDigit then digitPrefixLen cs + 1 else 0
  | [] => 0

/-- Numeric value of a digit list. -/
def digitsValue (l : List Char) : Nat :=
  l.foldl (fun a c => a * 10 + (c.toNat - 48)) 0

/-- All ways a greedy bounded digit group `\d{1,maxLen}` can match at the head
of `l`, longest first, as (captured value, rest).  Empty when no digit leads. -/
def digitTakes (maxLen : Nat) (l : List Char) : List (Nat × List Char) :=
  let n := min maxLen (digitPrefixLen l)
  (List.range n).map (fun i => (digitsValue (l.take (n - i)), l.drop (n - i)))

/-- All ways an unbounded digit group `\d+` can match at the head of `l`,
longest first. -/
def digitTakesAll (l : List Char) : List (Nat × List Char) :=
  digitTakes (digitPrefixLen l) l

/-- Length of the leading whitespace run. -/
def wsPrefixLen : List Char → Nat
  | c :: cs => if isWsChar c then wsPrefixLen cs + 1 else 0
  | [] => 0

/-- All ways `\s*` can match at the head of `l`, greedy (longest first),
as the remaining suffixes. -/
def wsTakes (l : List Char) : List (List Char) :=
  let n := wsPrefixLen l
  (List.range (n + 1)).map (fun i => l.drop (n - i))

/-- All ways `\s+` can match at the head of `l`, greedy, requiring at least
one whitespace character. -/
def wsTakesOne (l : List Char) : List (List Char) :=
  let n := wsPrefixLen l
  (List.range n).map (fun i => l.drop (n - i))

/-- Case-insensitive literal: if `l` starts with `pat` (given in lowercase)
up to case, return the rest. -/
def ciStarts : List Char → List Char → Option (List Char)
  | [], l => some l
  | _ :: _, [] => none
  | p :: ps, c :: cs => if c.toLower == p then ciStarts ps cs else none

/-- Drive a single-position matcher over every start position from the left,
returning the first (leftmost) success together with its start index.
`f` receives the character preceding the position (for word boundaries). -/
def scanFirstAux (f : Option Char → List Char → Option α) :
    Option Char → Nat → List Char → Option (Nat × α)
  | prev, i, [] =>
    match f prev [] with
    | some a => some (i, a)
    | none => none
  | prev, i, c :: cs =>
    match f prev (c :: cs) with
    | some a => some (i, a)
    | none => scanFirstAux f (some c) (i + 1) cs

/-- Leftmost match of a single-position matcher over a string. -/
def scanFirst (f : Option Char → List Char → Option α) (l : List Char) : Option (Nat × α) :=
  scanFirstAux f none 0 l

/-- Substring containment: does `needle` occur contiguously inside `hay`?
Models str::contains. -/
def hasSubstr : List Char → List Char → Bool
  | hay, needle =>
    if needle.isPrefixOf hay then true
    else
      match hay with
      | [] => false
      | _ :: t => hasSubstr t needle

/-- Trim leading and trailing whitespace (models str::trim on ASCII). -/
def trimChars (l : List Char) : List Char :=
  ((l.dropWhile isWsChar).reverse.dropWhile isWsChar).reverse

/-- Split on whitespace, dropping empty chunks (models str::split_whitespace). -/
def splitWsChars (l : List Char) : List (List Char) :=
  (l.splitOnP isWsChar).filter (fun w => !w.isEmpty)

end Miru

namespace Miru

/-! ## smart_search.rs : types -/

/-- ParsedQuery from src/nyaa/smart_search.rs. -/
structure ParsedQuery where
  show_name : String
  season : Option Nat
  episode : Option Nat
  is_batch_request : Bool
  raw_query : String
deriving DecidableEq, Repr

/-- SearchQuery from src/nyaa/smart_search.rs. -/
structure SearchQuery where
  primary : String
  alternatives : List String
  parsed : ParsedQuery
deriving DecidableEq, Repr

/-- Captures of one SEASON_EPISODE_PATTERNS entry: the first five patterns
carry a season group and an episode group; the last (Ep/Episode with no
season) carries the episode group only. -/
inductive SECaps where
  | two (s e : Nat)
  | one (e : Nat)
deriving DecidableEq, Repr

/-! ## smart_search.rs : SEASON_EPISODE_PATTERNS

Each seAtN embeds one regex of the table, matched at a single position. -/

/-- Pattern (?i)\bS(\d{1,2})\s*E(\d{1,3})\b at one position. -/
def seAt1 (prev : Option Char) (l : List Char) : Option SECaps :=
  if noWordBefore prev then
    match l with
    | c :: cs =>
      if charCi 's' c then
        (digitTakes 2 cs).findSome? (fun sv =>
          (wsTakes sv.2).findSome? (fun r2 =>
            match r2 with
            | e :: r3 =>
              if charCi 'e' e then
                (digitTakes 3 r3).findSome? (fun ev =>
                  if noWordNext ev.2 then some (SECaps.two sv.1 ev.1) else none)
              else none
            | [] => none))
      else none
    | [] => none
  else none

/-- Pattern (?i)\bS(\d{1,2})\s+E(\d{1,3})\b at one position. -/
def seAt2 (prev : Option Char) (l : List Char) : Option SECaps :=
  if noWordBefore prev then
    match l with
    | c :: cs =>
      if charCi 's' c then
        (digitTakes 2 cs).findSome? (fun sv =>
          (wsTakesOne sv.2).findSome? (fun r2 =>
            match r2 with
            | e :: r3 =>
              if charCi 'e' e then
                (digitTakes 3 r3).findSome? (fun ev =>
                  if noWordNext ev.2 then some (SECaps.two sv.1 ev.1) else none)
              else none
            | [] => none))
      else none
    | [] => none
  else none

/-- Pattern (?i)\b(\d{1,2})x(\d{1,3})\b at one position. -/
def seAt3 (prev : Option Char) (l : List Char) : Option SECaps :=
  if noWordBefore prev then
    (digitTakes 2 l).findSome? (fun sv =>
      match sv.2 with
      | x :: r2 =>
        if charCi 'x' x then
          (digitTakes 3 r2).findSome? (fun ev =>
            if noWordNext ev.2 then some (SECaps.two sv.1 ev.1) else none)
        else none
      | [] => none)
  else none

/-- Pattern (?i)\bSeason\s*(\d{1,2})\s*Episode\s*(\d{1,3})\b at one position. -/
def seAt4 (prev : Option Char) (l : List Char) : Option SECaps :=
  if noWordBefore prev then
    (ciStarts (("season").data) l).bind (fun r1 =>
      (wsTakes r1).findSome? (fun r2 =>
        (digitTakes 2 r2).findSome? (fun sv =>
          (wsTakes sv.2).findSome? (fun r3 =>
            (ciStarts (("episode").data) r3).bind (fun r4 =>
              (wsTakes r4).findSome? (fun r5 =>
                (digitTakes 3 r5).findSome? (fun ev =>
                  if noWordNext ev.2 then some (SECaps.two sv.1 ev.1) else none)))))))
  else none

/-- Pattern (?i)\bS(\d{1,2})\s*(?:Ep|Episode|E)\s*(\d{1,3})\b at one position;
the alternation is tried in written order. -/
def seAt5 (prev : Option Char) (l : List Char) : Option SECaps :=
  if noWordBefore prev then
    match l with
    | c :: cs =>
      if charCi 's' c then
        (digitTakes 2 cs).findSome? (fun sv =>
          (wsTakes sv.2).findSome? (fun r2 =>
            ["ep", "episode", "e"].findSome? (fun w =>
              (ciStarts w.data r2).bind (fun r3 =>
                (wsTakes r3).findSome? (fun r4 =>
                  (digitTakes 3 r4).findSome? (fun ev =>
                    if noWordNext ev.2 then some (SECaps.two sv.1 ev.1) else none))))))
      else none
    | [] => none
  else none

/-- Pattern (?i)\b(?:Ep|Episode)\s*(\d{1,3})\b at one position (no season
group: implies season 1). -/
def seAt6 (prev : Option Char) (l : List Char) : Option SECaps :=
  if noWordBefore prev then
    ["ep", "episode"].findSome? (fun w =>
      (ciStarts w.data l).bind (fun r2 =>
        (wsTakes r2).findSome? (fun r3 =>
          (digitTakes 3 r3).findSome? (fun ev =>
            if noWordNext ev.2 then some (SECaps.one ev.1) else none))))
  else none

/-- The ordered SEASON_EPISODE_PATTERNS table. -/
def SEASON_EPISODE_PATTERNS : List (Option Char → List Char → Option SECaps) :=
  [seAt1, seAt2, seAt3, seAt4, seAt5, seAt6]

/-- Pattern (?i)\bS(\d{1,2})\b at one position. -/
def soAt1 (prev : Option Char) (l : List Char) : Option Nat :=
  if noWordBefore prev then
    match l with
    | c :: cs =>
      if charCi 's' c then
        (digitTakes 2 cs).findSome? (fun sv =>
          if noWordNext sv.2 then some sv.1 else none)
      else none
    | [] => none
  else none

/-- Pattern (?i)\bSeason\s*(\d{1,2})\b at one position. -/
def soAt2 (prev : Option Char) (l : List Char) : Option Nat :=
  if noWordBefore prev then
    (ciStarts (("season").data) l).bind (fun r1 =>
      (wsTakes r1).findSome? (fun r2 =>
        (digitTakes 2 r2).findSome? (fun sv =>
          if noWordNext sv.2 then some sv.1 else none)))
  else none

/-- The ordered SEASON_ONLY_PATTERNS table. -/
def SEASON_ONLY_PATTERNS : List (Option Char → List Char → Option Nat) :=
  [soAt1, soAt2]

/-- Pattern (?i)\b(batch|complete|full|all\s*episodes?|1-\d+|\d+-\d+)\b at
one position; alternatives in written order. -/
def batchIndAt (prev : Option Char) (l : List Char) : Option Unit :=
  if noWordBefore prev then
    (["batch", "complete", "full"].findSome? (fun w =>
      (ciStarts w.data l).bind (fun r =>
        if noWordNext r then some () else none))).orElse (fun _ =>
    ((ciStarts (("all").data) l).bind (fun r1 =>
      (wsTakes r1).findSome? (fun r2 =>
        ["episodes", "episode"].findSome? (fun w =>
          (ciStarts w.data r2).bind (fun r3 =>
            if noWordNext r3 then some () else none))))).orElse (fun _ =>
    (match l with
     | '1' :: '-' :: r =>
       (digitTakesAll r).findSome? (fun (dv : Nat × List Char) =>
         if noWordNext dv.2 then some () else none)
     | _ => none).orElse (fun _ =>
    (digitTakesAll l).findSome? (fun (dv : Nat × List Char) =>
      match dv.2 with
      | '-' :: r =>
        (digitTakesAll r).findSome? (fun (dv2 : Nat × List Char) =>
          if noWordNext dv2.2 then some () else none)
      | _ => none))))
  else none

/-- BATCH_INDICATORS.is_match. -/
def batchIndicatorsMatch (l : List Char) : Bool :=
  (scanFirst batchIndAt l).isSome

/-! ## smart_search.rs : parse_query and helpers -/

/-- First SEASON_EPISODE_PATTERNS entry (in table order) that matches anywhere
in the query, with the leftmost match of that entry. -/
def seasonEpisodeScan (l : List Char) : Option (Nat × SECaps) :=
  SEASON_EPISODE_PATTERNS.findSome? (fun f => scanFirst f l)

/-- First SEASON_ONLY_PATTERNS entry that matches anywhere in the query. -/
def seasonOnlyScan (l : List Char) : Option (Nat × Nat) :=
  SEASON_ONLY_PATTERNS.findSome? (fun f => scanFirst f l)

/-- normalize_show_name from src/nyaa/smart_search.rs: trim, strip trailing
dash/colon/whitespace, collapse internal whitespace. -/
def normalize_show_name (l : List Char) : List Char :=
  let t := trimChars l
  let t := (t.reverse.dropWhile (fun c => c == '-' || c == ':' || isWsChar c)).reverse
  List.intercalate [' '] (splitWsChars t)

/-- Assemble a ParsedQuery from the pieces produced by the pattern loops of
parse_query.  The captured season groups are one or two digits and the episode
groups at most three (or four) digits, so the u32 parses of the Rust code
cannot fail and the captures are carried directly as numbers. -/
def mkParsed (show0 : List Char) (season episode : Option Nat) (q : List Char) : ParsedQuery :=
  { show_name := (normalize_show_name show0).asString
    season := season
    episode := episode
    is_batch_request := batchIndicatorsMatch q || (season.isSome && episode.isNone)
    raw_query := q.asString }

/-- parse_query from src/nyaa/smart_search.rs.  The season-only fallback runs
exactly when no season+episode pattern matched (an episode capture, being at
most three digits, always parses). -/
def parse_query (query : String) : ParsedQuery :=
  let q := trimChars query.data
  match seasonEpisodeScan q with
  | some (i, SECaps.two s e) => mkParsed (trimChars (q.take i)) (some s) (some e) q
  | some (i, SECaps.one e) => mkParsed (trimChars (q.take i)) (some 1) (some e) q
  | none =>
    match seasonOnlyScan q with
    | some (i, s) => mkParsed (trimChars (q.take i)) (some s) none q
    | none => mkParsed q none none q

/-- format_episode: zero-pad to two digits below 10. -/
def format_episode (ep : Nat) : String :=
  if ep < 10 then "0" ++ toString ep else toString ep

/-- format_season: zero-pad to two digits below 10. -/
def format_season (season : Nat) : String :=
  if season < 10 then "0" ++ toString season else toString season

/-- ordinal from src/nyaa/smart_search.rs: 2 becomes "2nd Season" with the
grammatically correct suffix. -/
def ordinal (n : Nat) : String :=
  let suffix :=
    if n % 10 == 1 && n % 100 != 11 then "st"
    else if n % 10 == 2 && n % 100 != 12 then "nd"
    else if n % 10 == 3 && n % 100 != 13 then "rd"
    else "th"
  toString n ++ suffix ++ " Season"

/-- generate_batch_queries from src/nyaa/smart_search.rs.  Note: the final
query of the Some(s) arm appends the literal suffix "nd Season" to the season
number, exactly as the source does. -/
def generate_batch_queries (parsed : ParsedQuery) : List String :=
  let sn := parsed.show_name
  match parsed.season with
  | some 1 =>
    [sn ++ " batch", sn ++ " complete", sn ++ " 1080p batch",
     sn ++ " Season 1", sn ++ " S01"]
  | some s =>
    [sn ++ " S" ++ format_season s ++ " batch",
     sn ++ " Season " ++ toString s ++ " batch",
     sn ++ " S" ++ format_season s,
     sn ++ " Season " ++ toString s,
     sn ++ " " ++ toString s ++ "nd Season"]
  | none =>
    [sn ++ " batch", sn ++ " complete", sn]

/-- generate_episode_queries from src/nyaa/smart_search.rs. -/
def generate_episode_queries (parsed : ParsedQuery) (episode : Nat) : List String :=
  let sn := parsed.show_name
  let ep := format_episode episode
  match parsed.season with
  | some 1 | none =>
    [sn ++ " " ++ ep, sn ++ " - " ++ ep, sn ++ " E" ++ ep,
     sn ++ " Episode " ++ ep, sn ++ " " ++ ep ++ " 1080p"]
      ++ (if episode ≥ 10 then [sn ++ " " ++ toString episode] else [])
  | some s =>
    [sn ++ " S" ++ format_season s ++ " - " ++ ep,
     sn ++ " S" ++ format_season s ++ " " ++ ep,
     sn ++ " Season " ++ toString s ++ " - " ++ ep,
     sn ++ " " ++ ordinal s ++ " " ++ ep,
     sn ++ " Part " ++ toString s ++ " " ++ ep,
     sn ++ " " ++ format_episode ((s - 1) * 12 + episode)]

/-- generate_show_queries from src/nyaa/smart_search.rs. -/
def generate_show_queries (parsed : ParsedQuery) : List String :=
  [parsed.show_name, parsed.show_name ++ " 1080p", parsed.show_name ++ " complete"]

/-- build_search_query from src/nyaa/smart_search.rs. -/
def build_search_query (input : String) : SearchQuery :=
  let parsed := parse_query input
  if parsed.show_name.isEmpty then
    { primary := parsed.raw_query, alternatives := [], parsed := parsed }
  else
    let queries :=
      if parsed.is_batch_request then generate_batch_queries parsed
      else
        match parsed.episode with
        | some ep => generate_episode_queries parsed ep
        | none => generate_show_queries parsed
    { primary := (queries.head?).getD parsed.raw_query
      alternatives := queries.tail
      parsed := parsed }

end Miru

namespace Miru

/-! ## parser.rs : EPISODE_PATTERNS

Each epAtN embeds one regex of the ordered cascade, matched at one position;
these patterns are case-sensitive except where the regex names both cases. -/

/-- Leading-run length for an arbitrary character class. -/
def classPrefixLen (p : Char → Bool) : List Char → Nat
  | c :: cs => if p c then classPrefixLen p cs + 1 else 0
  | [] => 0

/-- All ways a greedy star over class `p` can match at the head of `l`,
longest first, as the remaining suffixes. -/
def classTakes (p : Char → Bool) (l : List Char) : List (List Char) :=
  let n := classPrefixLen p l
  (List.range (n + 1)).map (fun i => l.drop (n - i))

/-- Case-sensitive literal: if `l` starts with `pat`, return the rest. -/
def litStarts : List Char → List Char → Option (List Char)
  | [], l => some l
  | _ :: _, [] => none
  | p :: ps, c :: cs => if c == p then litStarts ps cs else none

/-- The class [._\s] (also [\s._]) of the episode patterns. -/
def isSepDotUnd (c : Char) : Bool := c == '.' || c == '_' || isWsChar c

/-- Suffix alternation (?:\s*[\[\(]|\.|\s|$) of the first episode pattern. -/
def epTail1 (r : List Char) : Bool :=
  ((wsTakes r).any (fun r2 =>
    match r2 with
    | '[' :: _ => true
    | '(' :: _ => true
    | _ => false))
  || (match r with
      | '.' :: _ => true
      | c :: _ => isWsChar c
      | [] => true)

/-- Pattern "- (\d{1,4})(?:v\d)?(?:\s*[\[\(]|\.|\s|$)" at one position. -/
def epAt1 (_prev : Option Char) (l : List Char) : Option Nat :=
  match l with
  | '-' :: ' ' :: r1 =>
    (digitTakes 4 r1).findSome? (fun dv =>
      let fin := fun (r : List Char) => if epTail1 r then some dv.1 else none
      match dv.2 with
      | 'v' :: d :: r2 =>
        if d.isDigit then (fin r2).orElse (fun _ => fin dv.2) else fin dv.2
      | _ => fin dv.2)
  | _ => none

/-- Pattern "[Ss]\d{1,2}[Ee](\d{1,3})" at one position. -/
def epAt2 (_prev : Option Char) (l : List Char) : Option Nat :=
  match l with
  | c :: r1 =>
    if c == 'S' || c == 's' then
      (digitTakes 2 r1).findSome? (fun sv =>
        match sv.2 with
        | e :: r2 =>
          if e == 'E' || e == 'e' then
            (digitTakes 3 r2).findSome? (fun ev => some ev.1)
          else none
        | [] => none)
    else none
  | [] => none

/-- Pattern "[._\s](\d{1,3})[._\s]*(?:\[|$|\.)" at one position. -/
def epAt3 (_prev : Option Char) (l : List Char) : Option Nat :=
  match l with
  | c :: r1 =>
    if isSepDotUnd c then
      (digitTakes 3 r1).findSome? (fun dv =>
        (classTakes isSepDotUnd dv.2).findSome? (fun r2 =>
          match r2 with
          | '[' :: _ => some dv.1
          | '.' :: _ => some dv.1
          | [] => some dv.1
          | _ => none))
    else none
  | [] => none

/-- Pattern "^(\d{1,3})(?:\s*[-._]|\.mkv|\.mp4|\.avi)": anchored, so it can
only match at the start of the string (prev is none exactly there). -/
def epAt4 (prev : Option Char) (l : List Char) : Option Nat :=
  if prev.isNone then
    (digitTakes 3 l).findSome? (fun dv =>
      let r := dv.2
      if ((wsTakes r).any (fun r2 =>
            match r2 with
            | c :: _ => c == '-' || c == '.' || c == '_'
            | [] => false))
         || ((".mkv").data.isPrefixOf r)
         || ((".mp4").data.isPrefixOf r)
         || ((".avi").data.isPrefixOf r)
      then some dv.1 else none)
  else none

/-- Pattern "[Ee][Pp](?:isode)?[\s._]*(\d{1,3})" at one position (the literal
"isode" is case-sensitive in the source regex). -/
def epAt5 (_prev : Option Char) (l : List Char) : Option Nat :=
  match l with
  | e :: p :: r1 =>
    if (e == 'E' || e == 'e') && (p == 'P' || p == 'p') then
      let after := fun (r : List Char) =>
        (classTakes isSepDotUnd r).findSome? (fun r2 =>
          (digitTakes 3 r2).findSome? (fun dv => some dv.1))
      if ("isode").data.isPrefixOf r1 then
        (after (r1.drop 5)).orElse (fun _ => after r1)
      else after r1
    else none
  | _ => none

/-- Pattern "(?:[-._\s]|^)[Ee](\d{1,4})(?:v\d)?(?:[._\s]|$)": the leading
separator is checked against the previous character (or the string start),
which finds the same leftmost capture as consuming it. -/
def epAt6 (prev : Option Char) (l : List Char) : Option Nat :=
  let okPrev :=
    match prev with
    | none => true
    | some c => c == '-' || c == '.' || c == '_' || isWsChar c
  if okPrev then
    match l with
    | e :: r1 =>
      if e == 'E' || e == 'e' then
        (digitTakes 4 r1).findSome? (fun dv =>
          let fin := fun (r : List Char) =>
            match r with
            | [] => some dv.1
            | c :: _ => if isSepDotUnd c then some dv.1 else none
          match dv.2 with
          | 'v' :: d :: r2 =>
            if d.isDigit then (fin r2).orElse (fun _ => fin dv.2) else fin dv.2
          | _ => fin dv.2)
      else none
    | [] => none
  else none

/-- The ordered EPISODE_PATTERNS cascade of src/library/parser.rs. -/
def EPISODE_PATTERNS : List (Option Char → List Char → Option Nat) :=
  [epAt1, epAt2, epAt3, epAt4, epAt5, epAt6]

/-- COMPRESSED_EXTENSION from src/library/parser.rs. -/
def COMPRESSED_EXTENSION : String := ".zst"

/-- strip_suffix(COMPRESSED_EXTENSION).unwrap_or(filename). -/
def strip_zst (l : List Char) : List Char :=
  if (COMPRESSED_EXTENSION.data).isSuffixOf l then l.take (l.length - 4) else l

/-- The pattern loop of parse_episode_number: take the first pattern's capture;
accept it only when 0 < n < 1000, otherwise continue with the remaining
patterns.  A capture is at most four digits, so the u32 parse cannot fail. -/
def episodeCascade : List (Option Char → List Char → Option Nat) → List Char → Option Nat
  | [], _ => none
  | p :: ps, f =>
    match scanFirst p f with
    | some (_, n) => if 0 < n && n < 1000 then some n else episodeCascade ps f
    | none => episodeCascade ps f

/-- parse_episode_number from src/library/parser.rs. -/
def parse_episode_number (filename : String) : Option Nat :=
  episodeCascade EPISODE_PATTERNS (strip_zst filename.data)

/-- Pattern "((?:360|480|720|1080|2160)[pP]|4[kK])" at one position; the
result is already lowercased as parse_quality does. -/
def qualAt (_prev : Option Char) (l : List Char) : Option String :=
  (["360", "480", "720", "1080", "2160"].findSome? (fun d =>
    (litStarts d.data l).bind (fun r =>
      match r with
      | c :: _ => if c == 'p' || c == 'P' then some (d ++ "p") else none
      | [] => none))).orElse (fun _ =>
    match l with
    | '4' :: c :: _ => if c == 'k' || c == 'K' then some ("4k") else none
    | _ => none)

/-- parse_quality from src/library/parser.rs. -/
def parse_quality (filename : String) : Option String :=
  (scanFirst qualAt filename.data).map (fun r => r.2)

/-- parse_release_group from src/library/parser.rs: a single leading
bracketed token, "^\[([^\]]+)\]". -/
def parse_release_group (filename : String) : Option String :=
  match filename.data with
  | '[' :: r =>
    let content := r.takeWhile (fun c => c != ']')
    let rest := r.dropWhile (fun c => c != ']')
    if content.isEmpty then none
    else
      match rest with
      | ']' :: _ => some content.asString
      | _ => none
  | _ => none

/-- VIDEO_EXTENSIONS from src/library/parser.rs. -/
def VIDEO_EXTENSIONS : List String := ["mkv", "mp4", "avi", "webm", "m4v", "mov"]

/-- is_video_file from src/library/parser.rs (the extension test is a plain
ends_with, exactly as in the source). -/
def is_video_file (filename : String) : Bool :=
  let lower := lowerChars filename.data
  if (COMPRESSED_EXTENSION.data).isSuffixOf lower then
    let base := lower.take (lower.length - 4)
    VIDEO_EXTENSIONS.any (fun ext => (ext.data).isSuffixOf base)
  else
    VIDEO_EXTENSIONS.any (fun ext => (ext.data).isSuffixOf lower)

end Miru

namespace Miru

/-! ## batch.rs : folder categorization -/

/-- Pattern "(?i)^Season\s*(\d+)": anchored at the name start; the capture is
the full digit run. -/
def bSeasonAt1 (l : List Char) : Option Nat :=
  (ciStarts (("season").data) l).bind (fun r1 =>
    (wsTakes r1).findSome? (fun r2 =>
      (digitTakesAll r2).findSome? (fun dv => some dv.1)))

/-- Pattern "(?i)^S(\d{1,2})(?:\s|$|-)". -/
def bSeasonAt2 (l : List Char) : Option Nat :=
  match l with
  | c :: r1 =>
    if charCi 's' c then
      (digitTakes 2 r1).findSome? (fun dv =>
        match dv.2 with
        | [] => some dv.1
        | c2 :: _ => if isWsChar c2 || c2 == '-' then some dv.1 else none)
    else none
  | [] => none

/-- Pattern "(?i)^Part\s*(\d+)". -/
def bSeasonAt3 (l : List Char) : Option Nat :=
  (ciStarts (("part").data) l).bind (fun r1 =>
    (wsTakes r1).findSome? (fun r2 =>
      (digitTakesAll r2).findSome? (fun dv => some dv.1)))

/-- Pattern "(?i)^Cour\s*(\d+)". -/
def bSeasonAt4 (l : List Char) : Option Nat :=
  (ciStarts (("cour").data) l).bind (fun r1 =>
    (wsTakes r1).findSome? (fun r2 =>
      (digitTakesAll r2).findSome? (fun dv => some dv.1)))

/-- The ordered SEASON_PATTERNS table of src/library/batch.rs. -/
def BATCH_SEASON_PATTERNS : List (List Char → Option Nat) :=
  [bSeasonAt1, bSeasonAt2, bSeasonAt3, bSeasonAt4]

/-- Largest u32 value: an unbounded digit capture above this fails its
u32 parse in the source, and that pattern is skipped. -/
def U32_MAX : Nat := 4294967295

/-- The season-pattern loop of categorize_folder: the first pattern whose
capture exists and parses as u32 yields the season number — with no further
range restriction. -/
def season_folder_capture (l : List Char) : Option Nat :=
  BATCH_SEASON_PATTERNS.findSome? (fun f =>
    (f l).bind (fun v => if v ≤ U32_MAX then some v else none))

/-- FolderCategory from src/library/batch.rs. -/
inductive FolderCategory where
  | season (n : Nat)
  | ova
  | special
  | movie
  | extra
  | unknown
deriving DecidableEq, Repr

/-- Whole-name match of one alternative followed by an optional "s"
(patterns of the shape "(?i)^Xs?$"). -/
def wholeWithS (alts : List String) (l : List Char) : Bool :=
  alts.any (fun w =>
    match ciStarts w.data l with
    | some [] => true
    | some (c :: rest) => charCi 's' c && rest.isEmpty
    | none => false)

/-- Whole-name case-insensitive match of a single literal ("(?i)^X$"). -/
def wholeExact (w : String) (l : List Char) : Bool :=
  match ciStarts w.data l with
  | some [] => true
  | _ => false

/-- The ordered SPECIAL_PATTERNS table of src/library/batch.rs
(NC[OE][PD]s? expands to the four literals ncop/ncod/ncep/nced). -/
def SPECIAL_PATTERNS : List (FolderCategory × (List Char → Bool)) :=
  [(FolderCategory.ova, wholeWithS ["ova", "oav", "oad"]),
   (FolderCategory.special, wholeWithS ["special"]),
   (FolderCategory.movie, wholeWithS ["movie"]),
   (FolderCategory.extra, wholeWithS ["extra"]),
   (FolderCategory.extra, wholeExact ("bonus")),
   (FolderCategory.extra, wholeWithS ["ncop", "ncod", "ncep", "nced"])]

/-- categorize_folder from src/library/batch.rs: season patterns first (any
u32-parsable capture is accepted), then the special-content whole-name
patterns, else Unknown. -/
def categorize_folder (name : String) : FolderCategory :=
  match season_folder_capture name.data with
  | some n => FolderCategory.season n
  | none =>
    match SPECIAL_PATTERNS.findSome? (fun cp => if cp.2 name.data then some cp.1 else none) with
    | some c => c
    | none => FolderCategory.unknown

/-! ## batch.rs : batch analysis over a directory tree

The filesystem slice that analyze_batch reads (directory entries: file names
and subdirectories) is modelled as a finite tree; paths are lists of name
segments from the analysis root. -/

/-- A directory: its plain file names and its named subdirectories, in
directory-listing order. -/
inductive FsTree where
  | node (files : List String) (subdirs : List (String × FsTree))

/-- File names directly in a directory. -/
def FsTree.files : FsTree → List String
  | FsTree.node fs _ => fs

/-- Named subdirectories of a directory. -/
def FsTree.subdirs : FsTree → List (String × FsTree)
  | FsTree.node _ ds => ds

/-- SeasonInfo from src/library/batch.rs (paths as segment lists). -/
structure SeasonInfo where
  number : Nat
  folder_name : String
  path : List String
  episodes : List (List String)
deriving DecidableEq, Repr

/-- SpecialsInfo from src/library/batch.rs. -/
structure SpecialsInfo where
  ovas : List (List String)
  movies : List (List String)
  specials : List (List String)
  extras : List (List String)
deriving DecidableEq, Repr

/-- SpecialsInfo::is_empty. -/
def SpecialsInfo.is_empty (s : SpecialsInfo) : Bool :=
  s.ovas.isEmpty && s.movies.isEmpty && s.specials.isEmpty && s.extras.isEmpty

/-- SpecialsInfo::total_count. -/
def SpecialsInfo.total_count (s : SpecialsInfo) : Nat :=
  s.ovas.length + s.movies.length + s.specials.length + s.extras.length

/-- BatchAnalysis from src/library/batch.rs. -/
structure BatchAnalysis where
  is_batch : Bool
  total_videos : Nat
  seasons : List SeasonInfo
  specials : SpecialsInfo
  loose_episodes : List (List String)
deriving DecidableEq, Repr

/-- collect_videos_in_dir: the video files directly in a directory, as paths
under `p`. -/
def collect_videos_in_dir (p : List String) (files : List String) : List (List String) :=
  (files.filter is_video_file).map (fun f => p ++ [f])

/-- The contribution of one subdirectory entry to the enclosing analysis, as
(seasons, specials, loose episodes).  `sub` is the recursive analysis of the
entry, which the source computes (only) in the Unknown arm; it is passed here
as an argument so that analyze_batch below stays structurally recursive. -/
def entry_contribution (p : List String) (name : String) (t : FsTree)
    (sub : BatchAnalysis) : List SeasonInfo × SpecialsInfo × List (List String) :=
  let videos := collect_videos_in_dir (p ++ [name]) t.files
  match categorize_folder name with
  | FolderCategory.season n =>
    ([SeasonInfo.mk n name (p ++ [name]) videos],
     SpecialsInfo.mk [] [] [] [], ([] : List (List String)))
  | FolderCategory.ova => ([], SpecialsInfo.mk videos [] [] [], [])
  | FolderCategory.special => ([], SpecialsInfo.mk [] [] videos [], [])
  | FolderCategory.movie => ([], SpecialsInfo.mk [] videos [] [], [])
  | FolderCategory.extra => ([], SpecialsInfo.mk [] [] [] videos, [])
  | FolderCategory.unknown =>
    if sub.seasons.isEmpty then ([], SpecialsInfo.mk [] [] [] [], videos)
    else (sub.seasons, sub.specials, [])

/-- analyze_batch from src/library/batch.rs, for a directory root at path
`p`.  Each subdirectory contributes (seasons, specials, loose) according to
its category; an Unknown subdirectory is recursed into, its seasons and
specials merged upward when the recursion found seasons, and its direct
videos folded into loose episodes otherwise.  Seasons are then sorted
(stably) by number and the totals computed. -/
def analyze_batch (p : List String) : FsTree → BatchAnalysis
  | FsTree.node files subdirs =>
    let loose0 := collect_videos_in_dir p files
    let contribs := subdirs.attach.map
      (fun e =>
        entry_contribution p e.val.1 e.val.2 (analyze_batch (p ++ [e.val.1]) e.val.2))
    let seasons1 := (contribs.map (fun c => c.1)).flatten
    let specials1 : SpecialsInfo :=
      { ovas := (contribs.map (fun c => c.2.1.ovas)).flatten
        movies := (contribs.map (fun c => c.2.1.movies)).flatten
        specials := (contribs.map (fun c => c.2.1.specials)).flatten
        extras := (contribs.map (fun c => c.2.1.extras)).flatten }
    let loose1 := loose0 ++ (contribs.map (fun c => c.2.2)).flatten
    let seasons2 := seasons1.mergeSort (fun a b => decide (a.number ≤ b.number))
    let total := loose1.length + (seasons2.map (fun s => s.episodes.length)).sum
      + specials1.total_count
    { is_batch := !seasons2.isEmpty || decide (total ≥ 4) || !specials1.is_empty
      total_videos := total
      seasons := seasons2
      specials := specials1
      loose_episodes := loose1 }
termination_by t => sizeOf t
decreasing_by
  have h1 := List.sizeOf_lt_of_mem e.property
  simp only [FsTree.node.sizeOf_spec]
  have h2 : sizeOf e.val.2 < sizeOf e.val := by
    obtain ⟨a, b⟩ := e.val
    simp only [Prod.mk.sizeOf_spec]
    omega
  omega

end Miru

namespace Miru

/-! ## tracking.rs : the update matcher

The per-series filtering loop of check_for_updates (src/library/tracking.rs)
is pure once the network search result list is given; it is modelled here
with that list as an input.  Only the library fields the loop reads are
modelled (a show's id, title and flat episode list; the tracked series'
filters and watermark).  The HashMap of best candidates keyed by episode
number is modelled as an association list in insertion order; the claims
settled against it depend only on which episode numbers are present. -/

/-- Episode from src/library/models.rs (the fields read by the matcher). -/
structure Episode where
  number : Nat
  filename : String
deriving DecidableEq, Repr

/-- Show from src/library/models.rs (the fields read by the matcher). -/
structure LibShow where
  id : String
  title : String
  episodes : List Episode
deriving DecidableEq, Repr

/-- TrackedSeries from src/library/models.rs (the fields read by the
matcher). -/
structure TrackedSeries where
  id : String
  title : String
  query : String
  filter_group : Option String
  filter_quality : Option String
  min_episode : Nat
deriving DecidableEq, Repr

/-- Library from src/library/mod.rs (the fields read by the matcher). -/
structure Library where
  shows : List LibShow
  tracked_shows : List TrackedSeries
deriving DecidableEq, Repr

/-- One search result (title and magnet link) as read by the matcher. -/
structure NyaaResult where
  title : String
  magnet_link : String
deriving DecidableEq, Repr

/-- ExistingTorrent from src/library/tracking.rs. -/
structure ExistingTorrent where
  hash : String
  name : String
deriving DecidableEq, Repr

/-- UpdateResult from src/library/tracking.rs. -/
structure UpdateResult where
  series_title : String
  episode_number : Nat
  magnet : String
  title : String
deriving DecidableEq, Repr

/-- Library::get_show. -/
def Library.get_show (lib : Library) (id : String) : Option LibShow :=
  lib.shows.find? (fun s => s.id == id)

/-- Show::get_episode (flat episodes only). -/
def LibShow.get_episode (s : LibShow) (number : Nat) : Option Episode :=
  s.episodes.find? (fun e => e.number == number)

/-- str::to_lowercase on a String (ASCII case folding). -/
def lowerStr (s : String) : String := (lowerChars s.data).asString

/-- str::contains on Strings. -/
def strContains (hay needle : String) : Bool := hasSubstr hay.data needle.data

/-- A best-candidate map entry: episode number, score, magnet, title. -/
abbrev Cand := Nat × Int × String × String

/-- HashMap::entry(ep).or_insert((-1, "", "")) followed by the
score-comparison overwrite, on the association-list model. -/
def update_best : List Cand → Nat → Int → String → String → List Cand
  | [], ep, score, magnet, title =>
    if score > -1 then [(ep, score, magnet, title)] else [(ep, -1, "", "")]
  | e :: rest, ep, score, magnet, title =>
    if e.1 == ep then
      (if score > e.2.1 then (ep, score, magnet, title) else e) :: rest
    else e :: update_best rest ep score magnet title

/-- The body of the per-result loop of check_for_updates: parse the episode
number (skip when absent), drop results below the watermark, drop episodes
already in the library or matching an in-flight download, apply the optional
release-group and quality filters, then score the result and keep the best
candidate per episode number. -/
def series_step (library : Library) (existing_torrents : List ExistingTorrent)
    (series : TrackedSeries) (best : List Cand) (result : NyaaResult) : List Cand :=
  let title := result.title
  match parse_episode_number title with
  | none => best
  | some ep_num =>
    if ep_num < series.min_episode then best
    else
      let existing_show :=
        (library.get_show series.id).orElse (fun _ =>
          library.shows.find? (fun s =>
            let s_title := lowerStr s.title
            let q_title := lowerStr series.title
            strContains s_title q_title || strContains q_title s_title))
      let skip :=
        match existing_show with
        | some sh =>
          if (sh.get_episode ep_num).isSome then true
          else
            existing_torrents.any (fun t => lowerStr t.name == lowerStr title)
        | none => false
      if skip then best
      else
        let group_reject :=
          match series.filter_group with
          | some group =>
            match parse_release_group title with
            | some parsed_group => !strContains parsed_group group
            | none => true
          | none => false
        if group_reject then best
        else
          let quality_reject :=
            match series.filter_quality with
            | some quality =>
              match parse_quality title with
              | some parsed_qual => parsed_qual != lowerStr quality
              | none => true
            | none => false
          if quality_reject then best
          else
            let score : Int :=
              match parse_quality title with
              | some q => if q == "1080p" then 10 else if q == "720p" then 5 else 0
              | none => 0
            update_best best ep_num score result.magnet_link title

/-- The per-series part of check_for_updates: fold the filtering loop over
the search results, then emit one UpdateResult per retained episode. -/
def process_series_results (library : Library) (existing_torrents : List ExistingTorrent)
    (series : TrackedSeries) (results : List NyaaResult) : List UpdateResult :=
  let best := results.foldl (series_step library existing_torrents series) []
  best.map (fun c => UpdateResult.mk series.title c.1 c.2.2.1 c.2.2.2)

/-- check_for_updates from src/library/tracking.rs, with the network search
supplied as an oracle (none models the Err branch, which skips the series). -/
def check_for_updates (library : Library) (search : TrackedSeries → Option (List NyaaResult))
    (existing_torrents : List ExistingTorrent) : List UpdateResult :=
  (library.tracked_shows.map (fun series =>
    match search series with
    | some results => process_series_results library existing_torrents series results
    | none => [])).flatten

end Miru

namespace Miru

/-! ## smart_search.rs : score_result

The score is a sum of independent weighted components, one per block of the
source function, each over the lowercased title. -/

/-- Show-name component: +100 for a full substring match, else +20 per
show-name word contained in the title. -/
def name_score (title_lower show_lower : List Char) : Int :=
  if hasSubstr title_lower show_lower then 100
  else Int.ofNat (((splitWsChars show_lower).filter
    (fun w => hasSubstr title_lower w)).length * 20)

/-- Episode-number component: +50 when any of the literal episode
sub-patterns occurs in the title. -/
def episode_score (title_lower : List Char) (episode : Option Nat) : Int :=
  match episode with
  | some ep =>
    let epp := format_episode ep
    let pats : List String :=
      [" " ++ epp ++ " ", " " ++ epp, "- " ++ epp, "-" ++ epp,
       "E" ++ epp, "e" ++ epp, " " ++ toString ep ++ " ", "E" ++ toString ep ++ " "]
    if pats.any (fun pat => hasSubstr title_lower pat.data) then 50 else 0
  | none => 0

/-- Season component: +30 when season > 1 and a season token occurs. -/
def season_score (title_lower : List Char) (season : Option Nat) : Int :=
  match season with
  | some s =>
    if s > 1 then
      let pats : List String :=
        ["s" ++ format_season s, "s" ++ toString s, "season " ++ toString s,
         toString s ++ "nd season", toString s ++ "rd season",
         toString s ++ "th season", "part " ++ toString s]
      if pats.any (fun pat => hasSubstr title_lower (lowerChars pat.data)) then 30 else 0
    else 0
  | none => 0

/-- Resolution preference: +10 for 1080p. -/
def resolution_score (title_lower : List Char) : Int :=
  if hasSubstr title_lower (("1080p").data) then 10 else 0

/-- Known-reliable release groups: +15. -/
def subgroup_score (title_lower : List Char) : Int :=
  if (["subsplease", "erai-raws", "judas", "horriblesubs"]).any
      (fun g => hasSubstr title_lower g.data) then 15 else 0

/-- Batch penalty: −50 for batch-indicating tokens when the query wants one
specific episode and is not itself a batch request. -/
def batch_penalty (title_lower : List Char) (parsed : ParsedQuery) : Int :=
  if parsed.episode.isSome && !parsed.is_batch_request then
    if (["batch", "complete", "1-", "01-"]).any
        (fun b => hasSubstr title_lower b.data) then -50 else 0
  else 0

/-- Low-quality penalty: −20 for 480p or 360p. -/
def low_quality_penalty (title_lower : List Char) : Int :=
  if hasSubstr title_lower (("480p").data) || hasSubstr title_lower (("360p").data)
  then -20 else 0

/-- score_result from src/nyaa/smart_search.rs. -/
def score_result (result_title : String) (parsed : ParsedQuery) : Int :=
  let title_lower := lowerChars result_title.data
  let show_lower := lowerChars parsed.show_name.data
  name_score title_lower show_lower
    + episode_score title_lower parsed.episode
    + season_score title_lower parsed.season
    + resolution_score title_lower
    + subgroup_score title_lower
    + batch_penalty title_lower parsed
    + low_quality_penalty title_lower

end Miru

namespace Miru

/-! ## Path helpers and concrete instances used by the verification -/

/-- The special-bucket paths of an analysis. -/
def specialPaths (a : BatchAnalysis) : List (List String) :=
  a.specials.ovas ++ a.specials.movies ++ a.specials.specials ++ a.specials.extras

/-- The contribution of one subdirectory entry, with its recursive analysis. -/
def entryAnalysis (p : List String) (nt : String × FsTree) :
    List SeasonInfo × SpecialsInfo × List (List String) :=
  entry_contribution p nt.1 nt.2 (analyze_batch (p ++ [nt.1]) nt.2)

/-- The special-bucket paths of one entry contribution. -/
def contribSpecialPaths (c : List SeasonInfo × SpecialsInfo × List (List String)) :
    List (List String) :=
  c.2.1.ovas ++ c.2.1.movies ++ c.2.1.specials ++ c.2.1.extras

/-- A tracked series with watermark 5 and no filters. -/
def frierenSeries : TrackedSeries :=
  { id := "frieren", title := "Frieren", query := "Frieren",
    filter_group := none, filter_quality := none, min_episode := 5 }

/-- A library that already owns episode 6 of the tracked series. -/
def frierenLibrary : Library :=
  { shows := [{ id := "frieren", title := "Frieren",
                episodes := [{ number := 6, filename := "Frieren - 06.mkv" }] }],
    tracked_shows := [frierenSeries] }

/-- A candidate search result whose title parses to episode 4. -/
def candidate4 : NyaaResult :=
  { title := "[SubsPlease] Frieren - 04 (1080p) [DDD].mkv", magnet_link := "magnet4" }

/-- A candidate search result whose title parses to episode 5. -/
def candidate5 : NyaaResult :=
  { title := "[SubsPlease] Frieren - 05 (1080p) [AAA].mkv", magnet_link := "magnet5" }

/-- A candidate search result whose title parses to episode 6. -/
def candidate6 : NyaaResult :=
  { title := "[SubsPlease] Frieren - 06 (1080p) [BBB].mkv", magnet_link := "magnet6" }

/-- A candidate search result whose title parses to episode 7. -/
def candidate7 : NyaaResult :=
  { title := "[SubsPlease] Frieren - 07 (1080p) [CCC].mkv", magnet_link := "magnet7" }

/-- The candidate list of the watermark scenario (episodes 5, 6, 7). -/
def updateCandidates3 : List NyaaResult := [candidate5, candidate6, candidate7]

/-- The candidate list of the amended watermark scenario (episodes 4-7). -/
def updateCandidates4 : List NyaaResult := [candidate4, candidate5, candidate6, candidate7]

/-- An Unknown-named subdirectory holding a video file directly next to a
season folder. -/
def nestedShowDir : FsTree :=
  FsTree.node ["Extra.mkv", "notes.txt"]
    [("Season 1", FsTree.node ["s1e1.mkv", "s1e2.mkv"] [])]

end Miru

namespace Miru

/-! ## Supporting lemmas -/

/-- Structural induction for FsTree through its nested subdirectory list. -/
theorem FsTree.inductionOn {motive : FsTree → Prop}
    (h : ∀ files subdirs, (∀ nt ∈ subdirs, motive (Prod.snd nt)) →
      motive (FsTree.node files subdirs))
    (t : FsTree) : motive t :=
  match t with
  | FsTree.node files subdirs =>
    h files subdirs (fun nt _hmem => FsTree.inductionOn h nt.2)
termination_by sizeOf t
decreasing_by
  have h1 := List.sizeOf_lt_of_mem _hmem
  have h2 : sizeOf nt.2 < sizeOf nt := by
    obtain ⟨a, b⟩ := nt
    simp only [Prod.mk.sizeOf_spec]
    omega
  simp only [FsTree.node.sizeOf_spec]
  omega

/-- The seasons field of an analysis, as the sorted entry contributions. -/
theorem analyze_batch_seasons_eq (p : List String) (files : List String)
    (subdirs : List (String × FsTree)) :
    (analyze_batch p (FsTree.node files subdirs)).seasons =
      (((subdirs.map (entryAnalysis p)).map (fun c => c.1)).flatten).mergeSort
        (fun a b => decide (a.number ≤ b.number)) := by
  rw [analyze_batch]
  simp only [List.map_attach, List.pmap_eq_map]
  rfl

/-- The specials field of an analysis, bucket-wise over the contributions. -/
theorem analyze_batch_specials_eq (p : List String) (files : List String)
    (subdirs : List (String × FsTree)) :
    (analyze_batch p (FsTree.node files subdirs)).specials =
      { ovas := ((subdirs.map (entryAnalysis p)).map (fun c => c.2.1.ovas)).flatten
        movies := ((subdirs.map (entryAnalysis p)).map (fun c => c.2.1.movies)).flatten
        specials := ((subdirs.map (entryAnalysis p)).map (fun c => c.2.1.specials)).flatten
        extras := ((subdirs.map (entryAnalysis p)).map (fun c => c.2.1.extras)).flatten } := by
  rw [analyze_batch]
  simp only [List.map_attach, List.pmap_eq_map]
  rfl

/-- The loose-episodes field: root videos then the entry contributions. -/
theorem analyze_batch_loose_eq (p : List String) (files : List String)
    (subdirs : List (String × FsTree)) :
    (analyze_batch p (FsTree.node files subdirs)).loose_episodes =
      collect_videos_in_dir p files
        ++ ((subdirs.map (entryAnalysis p)).map (fun c => c.2.2)).flatten := by
  rw [analyze_batch]
  simp only [List.map_attach, List.pmap_eq_map]
  rfl

/-- Membership in a flattened double map comes from one list element. -/
theorem mem_flatten_map {α β γ : Type _} (l : List α) (f : α → β) (g : β → List γ) (x : γ)
    (hx : x ∈ ((l.map f).map g).flatten) : ∃ a ∈ l, x ∈ g (f a) := by
  simp only [List.mem_flatten, List.mem_map] at hx
  obtain ⟨s, ⟨b, ⟨a, ha, rfl⟩, rfl⟩, hxs⟩ := hx
  exact ⟨a, ha, hxs⟩

/-- Every season of an analysis comes from some subdirectory entry. -/
theorem mem_seasons_entry {p : List String} {files : List String}
    {subdirs : List (String × FsTree)} {si : SeasonInfo}
    (hsi : si ∈ (analyze_batch p (FsTree.node files subdirs)).seasons) :
    ∃ nt ∈ subdirs, si ∈ (entryAnalysis p nt).1 := by
  rw [analyze_batch_seasons_eq, List.mem_mergeSort] at hsi
  exact mem_flatten_map subdirs (entryAnalysis p) (fun c => c.1) si hsi

/-- Every special-bucket path of an analysis comes from some entry. -/
theorem mem_specials_entry {p : List String} {files : List String}
    {subdirs : List (String × FsTree)} {x : List String}
    (hx : x ∈ specialPaths (analyze_batch p (FsTree.node files subdirs))) :
    ∃ nt ∈ subdirs, x ∈ contribSpecialPaths (entryAnalysis p nt) := by
  rw [specialPaths, analyze_batch_specials_eq] at hx
  simp only [List.mem_append] at hx
  rcases hx with ((h | h) | h) | h
  · obtain ⟨nt, hnt, hm⟩ := mem_flatten_map subdirs (entryAnalysis p) (fun c => c.2.1.ovas) x h
    exact ⟨nt, hnt, by simp [contribSpecialPaths, hm]⟩
  · obtain ⟨nt, hnt, hm⟩ := mem_flatten_map subdirs (entryAnalysis p) (fun c => c.2.1.movies) x h
    exact ⟨nt, hnt, by simp [contribSpecialPaths, hm]⟩
  · obtain ⟨nt, hnt, hm⟩ := mem_flatten_map subdirs (entryAnalysis p) (fun c => c.2.1.specials) x h
    exact ⟨nt, hnt, by simp [contribSpecialPaths, hm]⟩
  · obtain ⟨nt, hnt, hm⟩ := mem_flatten_map subdirs (entryAnalysis p) (fun c => c.2.1.extras) x h
    exact ⟨nt, hnt, by simp [contribSpecialPaths, hm]⟩

/-- Every loose episode is a root video or comes from some entry. -/
theorem mem_loose_entry {p : List String} {files : List String}
    {subdirs : List (String × FsTree)} {x : List String}
    (hx : x ∈ (analyze_batch p (FsTree.node files subdirs)).loose_episodes) :
    x ∈ collect_videos_in_dir p files ∨ ∃ nt ∈ subdirs, x ∈ (entryAnalysis p nt).2.2 := by
  rw [analyze_batch_loose_eq, List.mem_append] at hx
  rcases hx with h | h
  · exact Or.inl h
  · exact Or.inr (mem_flatten_map subdirs (entryAnalysis p) (fun c => c.2.2) x h)

/-- A collected video path is the directory path plus one file name. -/
theorem mem_collect (dirPath : List String) (fs : List String) (x : List String)
    (hx : x ∈ collect_videos_in_dir dirPath fs) : ∃ f, x = dirPath ++ [f] := by
  unfold collect_videos_in_dir at hx
  simp only [List.mem_map] at hx
  obtain ⟨f, _, rfl⟩ := hx
  exact ⟨f, rfl⟩

/-- A season in an entry contribution is either the directly collected season
of a Season-categorized entry, or merged from the recursion of an Unknown
entry that found seasons. -/
theorem contrib_seasons_cases (p : List String) (name : String) (t : FsTree)
    (sub : BatchAnalysis) (si : SeasonInfo)
    (hsi : si ∈ (entry_contribution p name t sub).1) :
    (categorize_folder name ≠ FolderCategory.unknown
      ∧ si.episodes = collect_videos_in_dir (p ++ [name]) t.files)
    ∨ (categorize_folder name = FolderCategory.unknown ∧ sub.seasons ≠ []
        ∧ si ∈ sub.seasons) := by
  unfold entry_contribution at hsi
  cases hc : categorize_folder name <;> simp only [hc] at hsi
  case season n =>
    simp only [List.mem_singleton] at hsi
    subst hsi
    exact Or.inl ⟨by simp [hc], rfl⟩
  case ova => simp at hsi
  case special => simp at hsi
  case movie => simp at hsi
  case extra => simp at hsi
  case unknown =>
    split at hsi
    · simp at hsi
    · rename_i hne
      exact Or.inr ⟨rfl, by simpa [List.isEmpty_iff] using hne, hsi⟩

/-- A special path in an entry contribution is either directly collected from
a special-categorized entry, or merged from the recursion of an Unknown entry
that found seasons. -/
theorem contrib_specials_cases (p : List String) (name : String) (t : FsTree)
    (sub : BatchAnalysis) (x : List String)
    (hx : x ∈ contribSpecialPaths (entry_contribution p name t sub)) :
    (categorize_folder name ≠ FolderCategory.unknown ∧ ∃ f, x = p ++ [name, f])
    ∨ (categorize_folder name = FolderCategory.unknown ∧ sub.seasons ≠ []
        ∧ x ∈ specialPaths sub) := by
  unfold contribSpecialPaths entry_contribution at hx
  cases hc : categorize_folder name <;> simp only [hc] at hx
  case season n => simp at hx
  case ova =>
    simp only [List.append_nil, List.nil_append] at hx
    obtain ⟨f, hf⟩ := mem_collect (p ++ [name]) t.files x hx
    exact Or.inl ⟨by simp [hc], f, by simp [hf]⟩
  case special =>
    simp only [List.append_nil, List.nil_append] at hx
    obtain ⟨f, hf⟩ := mem_collect (p ++ [name]) t.files x hx
    exact Or.inl ⟨by simp [hc], f, by simp [hf]⟩
  case movie =>
    simp only [List.append_nil, List.nil_append] at hx
    obtain ⟨f, hf⟩ := mem_collect (p ++ [name]) t.files x hx
    exact Or.inl ⟨by simp [hc], f, by simp [hf]⟩
  case extra =>
    simp only [List.append_nil, List.nil_append] at hx
    obtain ⟨f, hf⟩ := mem_collect (p ++ [name]) t.files x hx
    exact Or.inl ⟨by simp [hc], f, by simp [hf]⟩
  case unknown =>
    split at hx
    · simp at hx
    · rename_i hne
      exact Or.inr ⟨rfl, by simpa [List.isEmpty_iff] using hne, hx⟩

/-- A loose-episode contribution only comes from an Unknown entry whose
recursion found no seasons, and holds that entry's directly collected
videos. -/
theorem contrib_loose_cases (p : List String) (name : String) (t : FsTree)
    (sub : BatchAnalysis) (x : List String)
    (hx : x ∈ (entry_contribution p name t sub).2.2) :
    categorize_folder name = FolderCategory.unknown ∧ sub.seasons = []
      ∧ ∃ f, x = p ++ [name, f] := by
  unfold entry_contribution at hx
  cases hc : categorize_folder name <;> simp only [hc] at hx
  case season n => simp at hx
  case ova => simp at hx
  case special => simp at hx
  case movie => simp at hx
  case extra => simp at hx
  case unknown =>
    split at hx
    · rename_i hemp
      obtain ⟨f, hf⟩ := mem_collect (p ++ [name]) t.files x hx
      exact ⟨rfl, by simpa [List.isEmpty_iff] using hemp, f, by simp [hf]⟩
    · simp at hx

/-- Every path in the seasons or special buckets of an analysis extends the
analysis root path by at least two segments (a folder and a file). -/
theorem deep_shape (t : FsTree) : ∀ (p x : List String),
    ((∃ si ∈ (analyze_batch p t).seasons, x ∈ si.episodes)
      ∨ x ∈ specialPaths (analyze_batch p t)) →
    ∃ q, x = p ++ q ∧ 2 ≤ q.length := by
  induction t using FsTree.inductionOn with
  | h files subdirs IH =>
    intro p x hx
    rcases hx with ⟨si, hsi, hxsi⟩ | hx
    · obtain ⟨nt, hnt, hsi2⟩ := mem_seasons_entry hsi
      unfold entryAnalysis at hsi2
      rcases contrib_seasons_cases p nt.1 nt.2 (analyze_batch (p ++ [nt.1]) nt.2) si hsi2 with
        ⟨_, heps⟩ | ⟨_, _, hsub⟩
      · rw [heps] at hxsi
        obtain ⟨f, hf⟩ := mem_collect (p ++ [nt.1]) nt.2.files x hxsi
        exact ⟨[nt.1, f], by simp [hf], by simp⟩
      · obtain ⟨q, hq, hlen⟩ := IH nt hnt (p ++ [nt.1]) x (Or.inl ⟨si, hsub, hxsi⟩)
        refine ⟨nt.1 :: q, by simp [hq], ?_⟩
        simp only [List.length_cons]
        omega
    · obtain ⟨nt, hnt, hx2⟩ := mem_specials_entry hx
      unfold entryAnalysis at hx2
      rcases contrib_specials_cases p nt.1 nt.2 (analyze_batch (p ++ [nt.1]) nt.2) x hx2 with
        ⟨_, f, hf⟩ | ⟨_, _, hsub⟩
      · exact ⟨[nt.1, f], hf, by simp⟩
      · obtain ⟨q, hq, hlen⟩ := IH nt hnt (p ++ [nt.1]) x (Or.inr hsub)
        refine ⟨nt.1 :: q, by simp [hq], ?_⟩
        simp only [List.length_cons]
        omega

/-- Any accepted value of the episode cascade lies in the accepted range. -/
theorem episodeCascade_range :
    ∀ (ps : List (Option Char → List Char → Option Nat)) (l : List Char) (n : Nat),
      episodeCascade ps l = some n → 0 < n ∧ n < 1000 := by
  intro ps
  induction ps with
  | nil => intro l n h; simp [episodeCascade] at h
  | cons p ps ih =>
    intro l n h
    unfold episodeCascade at h
    rcases hs : scanFirst p l with _ | ⟨i, m⟩
    · simp only [hs] at h; exact ih l n h
    · simp only [hs] at h
      split at h
      · rename_i hcond
        have hmn : m = n := Option.some.inj h
        subst hmn
        simp only [Bool.and_eq_true, decide_eq_true_eq] at hcond
        exact hcond
      · exact ih l n h

/-- The nestedShowDir analysis discovers a season (its Season 1 folder). -/
theorem nestedShowDir_has_seasons :
    (analyze_batch (([] : List String) ++ ["MyShow"]) nestedShowDir).seasons ≠ [] := by
  have hc : categorize_folder ("Season 1") = FolderCategory.season 1 := by decide
  intro h
  rw [show nestedShowDir = FsTree.node ["Extra.mkv", "notes.txt"]
    [("Season 1", FsTree.node ["s1e1.mkv", "s1e2.mkv"] [])] from rfl] at h
  rw [analyze_batch_seasons_eq] at h
  simp only [List.map_cons, List.map_nil, entryAnalysis, entry_contribution, hc,
    List.flatten_cons, List.flatten_nil, List.append_nil] at h
  have h2 := List.mergeSort_perm
    ([SeasonInfo.mk 1 "Season 1" ((([] : List String) ++ ["MyShow"]) ++ ["Season 1"])
      (collect_videos_in_dir ((([] : List String) ++ ["MyShow"]) ++ ["Season 1"])
        (FsTree.node ["s1e1.mkv", "s1e2.mkv"] []).files)])
    (fun a b => decide (a.number ≤ b.number))
  rw [h] at h2
  have h3 := h2.length_eq
  simp at h3

end Miru

namespace Miru

/-! ## Claim theorems -/

/-- C1 (counterexample): the claim says a candidate parsing to episode 5 is
dropped as below the min_episode = 5 watermark.  The watermark comparison of
check_for_updates is strict (ep_num < min_episode), so with candidates for
episodes 5, 6 and 7 against a library owning episode 6, the matcher emits
update records for episodes 5 and 7: the episode-5 candidate is retained,
refuting the claim at this input. -/
theorem watermark_equal_episode_retained_cex :
    (process_series_results frierenLibrary [] frierenSeries updateCandidates3).map
      (fun u => u.episode_number) = [5, 7] := by decide

/-- C1 (amended): with min_episode = 5 and a library owning episode 6, a
candidate strictly below the watermark (episode 4) is dropped, the episode-5
candidate (equal to the watermark, hence still "new") is retained, episode 6
is dropped as already owned, and episode 7 is retained; in general any result
parsing to an episode strictly below the watermark leaves the candidate map
unchanged. -/
theorem update_matcher_watermark_filtering :
    ((process_series_results frierenLibrary [] frierenSeries updateCandidates4).map
      (fun u => u.episode_number) = [5, 7])
    ∧ (∀ (lib : Library) (ex : List ExistingTorrent) (series : TrackedSeries)
        (best : List Cand) (r : NyaaResult) (ep : Nat),
        parse_episode_number r.title = some ep → ep < series.min_episode →
        series_step lib ex series best r = best) := by
  refine ⟨by decide, ?_⟩
  intro lib ex series best r ep hp hlt
  simp only [series_step, hp]
  simp [hlt]

/-- C1 (witness): the general watermark-drop clause applied to the concrete
episode-4 candidate under the min_episode = 5 series. -/
theorem update_matcher_watermark_filtering_witness :
    series_step frierenLibrary [] frierenSeries [] candidate4 = [] :=
  update_matcher_watermark_filtering.2 frierenLibrary [] frierenSeries [] candidate4 4
    (by decide) (by decide)

/-- C2 (counterexample): the claim says the Folder Categorizer accepts a
numeric season capture only when 0 < n < 100, so "Season 500" must not
categorize to Season(500).  categorize_folder applies no such range check:
"Season 500" categorizes to Season(500). -/
theorem categorize_folder_season500_cex :
    categorize_folder ("Season 500") = FolderCategory.season 500 := by decide

/-- C2 (amended): categorize_folder accepts every numeric season capture that
parses as u32, with no (0, 100) range restriction (unlike the title parsers):
whenever the season-pattern table captures v, the folder categorizes to
Season(v), and in particular "Season 0" categorizes to Season(0). -/
theorem categorize_folder_unbounded_capture :
    (∀ (name : String) (v : Nat),
      season_folder_capture name.data = some v →
      categorize_folder name = FolderCategory.season v)
    ∧ categorize_folder ("Season 0") = FolderCategory.season 0 := by
  refine ⟨?_, by decide⟩
  intro name v h
  unfold categorize_folder
  rw [h]

/-- C2 (witness): the general acceptance clause applied to "Season 500",
whose capture is 500. -/
theorem categorize_folder_unbounded_capture_witness :
    categorize_folder ("Season 500") = FolderCategory.season 500 :=
  categorize_folder_unbounded_capture.1 ("Season 500") 500 (by decide)

/-- C3: the claim says batch queries contain a grammatically correct
ordinal-season form as computed by the ordinal helper.  For the parsed batch
request "Attack on Titan S03" (season 3), generate_batch_queries emits the
literal-suffix form "Attack on Titan 3nd Season" — the ordinal helper
computes "3rd Season", but generate_batch_queries does not call it — and the
grammatically correct form is absent from the generated list. -/
theorem batch_queries_ordinal_suffix_bug :
    ((build_search_query ("Attack on Titan S03")).primary ::
      (build_search_query ("Attack on Titan S03")).alternatives) =
      ["Attack on Titan S03 batch", "Attack on Titan Season 3 batch",
       "Attack on Titan S03", "Attack on Titan Season 3",
       "Attack on Titan 3nd Season"]
    ∧ ordinal 3 = "3rd Season"
    ∧ ("Attack on Titan " ++ ordinal 3) ∉
        ((build_search_query ("Attack on Titan S03")).primary ::
          (build_search_query ("Attack on Titan S03")).alternatives) := by
  refine ⟨by decide, by decide, by decide⟩

/-- C4: for every directory tree, total_videos equals the number of loose
episodes plus the episodes of all seasons plus the total of the four special
buckets. -/
theorem batch_analysis_total_videos_invariant (p : List String) (t : FsTree) :
    (analyze_batch p t).total_videos =
      (analyze_batch p t).loose_episodes.length
      + ((analyze_batch p t).seasons.map (fun s => s.episodes.length)).sum
      + (analyze_batch p t).specials.total_count := by
  cases t with
  | node files subdirs =>
    rw [analyze_batch]

/-- C5: "Frieren S01E09" parses to show "Frieren", season 1, episode 9, not a
batch request, and the built SearchQuery has primary "Frieren 09". -/
theorem frieren_query_parse_and_primary :
    parse_query ("Frieren S01E09") =
      { show_name := "Frieren", season := some 1, episode := some 9,
        is_batch_request := false, raw_query := "Frieren S01E09" }
    ∧ (build_search_query ("Frieren S01E09")).primary = "Frieren 09" := by
  refine ⟨by decide, by decide⟩

/-- C6: parse_episode_number returns some n only when 0 < n < 1000; a pattern
whose leftmost capture is out of range hands over to the remaining patterns
of the cascade, in order; and when every pattern's capture is absent or out
of range the result is none (absence, never an error). -/
theorem parse_episode_number_range_cascade :
    (∀ (s : String) (n : Nat), parse_episode_number s = some n → 0 < n ∧ n < 1000)
    ∧ (∀ (fn : Option Char → List Char → Option Nat)
        (fns : List (Option Char → List Char → Option Nat)) (l : List Char) (i n : Nat),
        scanFirst fn l = some (i, n) → ¬(0 < n ∧ n < 1000) →
        episodeCascade (fn :: fns) l = episodeCascade fns l)
    ∧ (∀ s : String,
        (EPISODE_PATTERNS.all (fun fn =>
          match scanFirst fn (strip_zst s.data) with
          | none => true
          | some r => !(decide (0 < r.2) && decide (r.2 < 1000)))) = true →
        parse_episode_number s = none) := by
  refine ⟨?_, ?_, ?_⟩
  · intro s n h
    exact episodeCascade_range EPISODE_PATTERNS (strip_zst s.data) n h
  · intro fn fns l i n hs hn
    conv_lhs => rw [episodeCascade]
    simp only [hs]
    rw [if_neg]
    simp only [Bool.and_eq_true, decide_eq_true_eq]
    exact hn
  · intro s h
    unfold parse_episode_number
    generalize hl : strip_zst s.data = l at h
    revert h
    show (EPISODE_PATTERNS.all _) = true → _
    generalize EPISODE_PATTERNS = ps
    induction ps with
    | nil => intro _; simp [episodeCascade]
    | cons p ps ih =>
      intro h
      simp only [List.all_cons, Bool.and_eq_true] at h
      unfold episodeCascade
      rcases hs : scanFirst p l with _ | ⟨i, m⟩
      · simp only [hs]; exact ih h.2
      · have h1 := h.1
        simp only [hs, Bool.not_eq_true'] at h1 ⊢
        rw [if_neg]
        · exact ih h.2
        · simp [h1]

/-- C6 (witness): the range clause at a parsed episode 15, the cascade
continuation at a title whose first pattern captures the out-of-range 1000,
and the none clause at an input matching no pattern. -/
theorem parse_episode_number_range_cascade_witness :
    (0 < 15 ∧ 15 < 1000)
    ∧ episodeCascade [epAt1, epAt2, epAt3, epAt4, epAt5, epAt6]
        (("Show - 1000 [1080p].mkv").data)
        = episodeCascade [epAt2, epAt3, epAt4, epAt5, epAt6]
          (("Show - 1000 [1080p].mkv").data)
    ∧ parse_episode_number ("abc") = none :=
  ⟨parse_episode_number_range_cascade.1 ("Show Name S02E15.mp4") 15 (by decide),
   parse_episode_number_range_cascade.2.1 epAt1 [epAt2, epAt3, epAt4, epAt5, epAt6]
     (("Show - 1000 [1080p].mkv").data) 5 1000 (by decide) (by decide),
   parse_episode_number_range_cascade.2.2 ("abc") (by decide)⟩

/-- C7: is_batch_request is set exactly when the (trimmed) query has a
free-text batch indicator or the parse produced a season with no episode;
and "One Piece S02" parses to season 2, no episode, batch request. -/
theorem is_batch_request_characterization :
    (∀ q : String,
      (parse_query q).is_batch_request =
        (batchIndicatorsMatch (trimChars q.data)
          || ((parse_query q).season.isSome && (parse_query q).episode.isNone)))
    ∧ parse_query ("One Piece S02") =
        { show_name := "One Piece", season := some 2, episode := none,
          is_batch_request := true, raw_query := "One Piece S02" } := by
  refine ⟨?_, by decide⟩
  intro q
  unfold parse_query
  rcases hse : seasonEpisodeScan (trimChars q.data) with _ | ⟨i, se⟩
  · rcases hso : seasonOnlyScan (trimChars q.data) with _ | ⟨j, s⟩
    · simp [hse, hso, mkParsed]
    · simp [hse, hso, mkParsed]
  · cases se <;> simp [hse, mkParsed]

/-- C8: under the parsed query of "Frieren S01E09", the single-episode title
scores strictly higher than the batch title; and in general, whenever the
parsed query has an episode, is not a batch request, and the lowercased title
contains a batch-indicating token, the batch-penalty component is −50 and the
total score is the sum of the other components minus 50. -/
theorem score_result_batch_penalty_spec :
    (score_result ("[SubsPlease] Frieren - 09 [1080p].mkv") (parse_query ("Frieren S01E09")) >
      score_result ("[SubsPlease] Frieren - Batch (01-12) [1080p].mkv")
        (parse_query ("Frieren S01E09")))
    ∧ (∀ (t : String) (p : ParsedQuery),
        p.episode.isSome = true → p.is_batch_request = false →
        (["batch", "complete", "1-", "01-"]).any
          (fun b => hasSubstr (lowerChars t.data) b.data) = true →
        batch_penalty (lowerChars t.data) p = -50
        ∧ score_result t p =
            name_score (lowerChars t.data) (lowerChars p.show_name.data)
            + episode_score (lowerChars t.data) p.episode
            + season_score (lowerChars t.data) p.season
            + resolution_score (lowerChars t.data)
            + subgroup_score (lowerChars t.data)
            + (-50)
            + low_quality_penalty (lowerChars t.data)) := by
  refine ⟨by decide, ?_⟩
  intro t p h1 h2 h3
  have hpen : batch_penalty (lowerChars t.data) p = -50 := by
    unfold batch_penalty
    rw [h1, h2]
    simp [h3]
  refine ⟨hpen, ?_⟩
  simp only [score_result, hpen]

/-- C8 (witness): the penalty clause applied to the concrete batch title
under the parsed "Frieren S01E09" query. -/
theorem score_result_batch_penalty_spec_witness :
    batch_penalty (lowerChars (("[SubsPlease] Frieren - Batch (01-12) [1080p].mkv").data))
      (parse_query ("Frieren S01E09")) = -50 :=
  (score_result_batch_penalty_spec.2 ("[SubsPlease] Frieren - Batch (01-12) [1080p].mkv")
    (parse_query ("Frieren S01E09")) (by decide) (by decide) (by decide)).1

/-- C9: whenever parse_query produces an episode it also produces a season
(the episode-only pattern defaults the season to 1, as for "Frieren Ep 9"). -/
theorem parse_query_episode_implies_season :
    (∀ q : String,
      ((parse_query q).episode).isSome = true → ((parse_query q).season).isSome = true)
    ∧ (parse_query ("Frieren Ep 9")).season = some 1
    ∧ (parse_query ("Frieren Ep 9")).episode = some 9 := by
  refine ⟨?_, by decide, by decide⟩
  intro q h
  unfold parse_query at h ⊢
  rcases hse : seasonEpisodeScan (trimChars q.data) with _ | ⟨i, se⟩
  · rcases hso : seasonOnlyScan (trimChars q.data) with _ | ⟨j, s⟩
    · simp [hse, hso, mkParsed] at h
    · simp [hse, hso, mkParsed] at h
  · cases se <;> simp [hse, mkParsed]

/-- C9 (witness): the invariant applied to "Frieren S01E09", whose parse has
an episode. -/
theorem parse_query_episode_implies_season_witness :
    ((parse_query ("Frieren S01E09")).season).isSome = true :=
  parse_query_episode_implies_season.1 ("Frieren S01E09") (by decide)

/-- C10: when the root has an Unknown-categorized subdirectory (with a name
distinct from its siblings) whose recursive analysis discovers seasons, a
video file lying directly in that subdirectory appears in no field of the
returned analysis: not among the loose episodes, not in any season's episode
list, and in none of the four special buckets (and hence, by the C4 total
invariant, it is not counted in total_videos). -/
theorem unknown_subdir_videos_dropped
    (p : List String) (files : List String) (subdirs : List (String × FsTree))
    (dname : String) (dtree : FsTree) (f : String)
    (hnodup : (subdirs.map Prod.fst).Nodup)
    (hmem : (dname, dtree) ∈ subdirs)
    (hcat : categorize_folder dname = FolderCategory.unknown)
    (hseasons : (analyze_batch (p ++ [dname]) dtree).seasons ≠ [])
    (_hf : f ∈ dtree.files) (_hvid : is_video_file f = true) :
    p ++ [dname, f] ∉ (analyze_batch p (FsTree.node files subdirs)).loose_episodes
    ∧ (∀ si ∈ (analyze_batch p (FsTree.node files subdirs)).seasons,
        p ++ [dname, f] ∉ si.episodes)
    ∧ p ++ [dname, f] ∉ (analyze_batch p (FsTree.node files subdirs)).specials.ovas
    ∧ p ++ [dname, f] ∉ (analyze_batch p (FsTree.node files subdirs)).specials.movies
    ∧ p ++ [dname, f] ∉ (analyze_batch p (FsTree.node files subdirs)).specials.specials
    ∧ p ++ [dname, f] ∉ (analyze_batch p (FsTree.node files subdirs)).specials.extras := by
  have key : ∀ (nm f' : String), p ++ [dname, f] = p ++ [nm, f'] → nm = dname ∧ f' = f := by
    intro nm f' h
    have h2 : [dname, f] = [nm, f'] := List.append_cancel_left h
    simp only [List.cons.injEq, and_true] at h2
    exact ⟨h2.1.symm, h2.2.symm⟩
  have keylen : ∀ (nm : String) (q : List String), 2 ≤ q.length →
      p ++ [dname, f] = (p ++ [nm]) ++ q → False := by
    intro nm q hlen h
    rw [List.append_assoc] at h
    have h2 : [dname, f] = [nm] ++ q := List.append_cancel_left h
    have h3 := congrArg List.length h2
    simp only [List.length_append, List.length_cons, List.length_nil] at h3
    omega
  have hspec : p ++ [dname, f] ∉ specialPaths (analyze_batch p (FsTree.node files subdirs)) := by
    intro hx
    obtain ⟨nt, hnt, hx2⟩ := mem_specials_entry hx
    unfold entryAnalysis at hx2
    rcases contrib_specials_cases p nt.1 nt.2 (analyze_batch (p ++ [nt.1]) nt.2) _ hx2 with
      ⟨hne, f', hf'⟩ | ⟨_, _, hsub⟩
    · obtain ⟨h1, _⟩ := key nt.1 f' hf'
      rw [h1] at hne
      exact hne hcat
    · obtain ⟨q, hq, hlen⟩ := deep_shape nt.2 (p ++ [nt.1]) _ (Or.inr hsub)
      exact keylen nt.1 q hlen hq
  refine ⟨?_, ?_, ?_, ?_, ?_, ?_⟩
  · intro hx
    rcases mem_loose_entry hx with h | ⟨nt, hnt, hx2⟩
    · obtain ⟨f', hf'⟩ := mem_collect p files _ h
      have h3 := congrArg List.length hf'
      simp only [List.length_append, List.length_cons, List.length_nil] at h3
      omega
    · unfold entryAnalysis at hx2
      obtain ⟨hcat', hemp, f', hf'⟩ :=
        contrib_loose_cases p nt.1 nt.2 (analyze_batch (p ++ [nt.1]) nt.2) _ hx2
      obtain ⟨h1, _⟩ := key nt.1 f' hf'
      have hnt_eq : nt = (dname, dtree) := by
        apply List.inj_on_of_nodup_map hnodup hnt hmem
        simp [h1]
      rw [hnt_eq] at hemp
      exact hseasons hemp
  · intro si hsi hx
    obtain ⟨nt, hnt, hsi2⟩ := mem_seasons_entry hsi
    unfold entryAnalysis at hsi2
    rcases contrib_seasons_cases p nt.1 nt.2 (analyze_batch (p ++ [nt.1]) nt.2) si hsi2 with
      ⟨hne, heps⟩ | ⟨_, _, hsub⟩
    · rw [heps] at hx
      obtain ⟨f', hf'⟩ := mem_collect (p ++ [nt.1]) nt.2.files _ hx
      rw [List.append_assoc] at hf'
      obtain ⟨h1, _⟩ := key nt.1 f' hf'
      rw [h1] at hne
      exact hne hcat
    · obtain ⟨q, hq, hlen⟩ := deep_shape nt.2 (p ++ [nt.1]) _ (Or.inl ⟨si, hsub, hx⟩)
      exact keylen nt.1 q hlen hq
  · intro hx
    exact hspec (by simp [specialPaths, hx])
  · intro hx
    exact hspec (by simp [specialPaths, hx])
  · intro hx
    exact hspec (by simp [specialPaths, hx])
  · intro hx
    exact hspec (by simp [specialPaths, hx])

/-- C10 (witness): the drop theorem applied to a root holding one Unknown
subdirectory "MyShow" that contains Extra.mkv directly next to a Season 1
folder. -/
theorem unknown_subdir_videos_dropped_witness :
    ([] : List String) ++ ["MyShow", "Extra.mkv"] ∉
      (analyze_batch [] (FsTree.node [] [("MyShow", nestedShowDir)])).loose_episodes
    ∧ (∀ si ∈ (analyze_batch [] (FsTree.node [] [("MyShow", nestedShowDir)])).seasons,
        ([] : List String) ++ ["MyShow", "Extra.mkv"] ∉ si.episodes)
    ∧ ([] : List String) ++ ["MyShow", "Extra.mkv"] ∉
      (analyze_batch [] (FsTree.node [] [("MyShow", nestedShowDir)])).specials.ovas
    ∧ ([] : List String) ++ ["MyShow", "Extra.mkv"] ∉
      (analyze_batch [] (FsTree.node [] [("MyShow", nestedShowDir)])).specials.movies
    ∧ ([] : List String) ++ ["MyShow", "Extra.mkv"] ∉
      (analyze_batch [] (FsTree.node [] [("MyShow", nestedShowDir)])).specials.specials
    ∧ ([] : List String) ++ ["MyShow", "Extra.mkv"] ∉
      (analyze_batch [] (FsTree.node [] [("MyShow", nestedShowDir)])).specials.extras :=
  unknown_subdir_videos_dropped [] [] [("MyShow", nestedShowDir)] ("MyShow") nestedShowDir
    ("Extra.mkv") (by decide) (List.Mem.head _) (by decide) nestedShowDir_has_seasons
    (by decide) (by decide)

end Miru
